import Mathlib

/-!
Verification of the pyroscope-rs sampling pipeline against its specification.

The development shallowly embeds the two source files:
  * `src/utils.rs`  — `pyroscope_ingest`, `merge_tags_with_app_name`, `fold`;
  * `src/pyroscope_backends/pyroscope_rbspy/src/lib.rs` — the `Rbspy` backend
    and its `Backend` implementation.

Machine integers are modelled as `Nat`/`Int` with explicit `% 2 ^ 64`
(resp. `% 2 ^ 32`) where u64/u32 wrap-around matters.  Sequential writes to
an output sink are modelled as string concatenation in write order.
-/

/-- Concatenation of a sequence of written chunks, in order: the model of a
writer that receives successive `write!` calls. -/
def concatAll : List String → String
  | [] => ""
  | x :: xs => x ++ concatAll xs

theorem concatAll_cons (x : String) (xs : List String) :
    concatAll (x :: xs) = x ++ concatAll xs := rfl

/-- Separator-join (the semantics of joining rendered items with a separator,
with no separator after the last item). -/
def joinSep (sep : String) : List String → String
  | [] => ""
  | [a] => a
  | a :: b :: t => a ++ sep ++ joinSep sep (b :: t)


/-! ## An executable lexicographic order on strings

Rust `Vec<String>::sort` uses `String`'s `Ord`: lexicographic on UTF-8
bytes, which coincides with lexicographic order on code points.  Lean's
built-in `String` order is the same order, but its decision procedure does
not reduce inside the kernel, so the order is embedded directly as a
computable comparison on the character (code point) lists. -/

def charListLe : List Char → List Char → Bool
  | [], _ => true
  | _ :: _, [] => false
  | a :: as, b :: bs =>
    if a.toNat < b.toNat then true
    else if b.toNat < a.toNat then false
    else charListLe as bs

/-- The total order `Rust String Ord` on strings. -/
def strLe (a b : String) : Bool := charListLe a.data b.data

/-- `strLe` as a relation, the sorting order of `Vec::sort` on strings. -/
def strLeProp (a b : String) : Prop := strLe a b = true

instance : DecidableRel strLeProp := fun a b => by
  unfold strLeProp
  infer_instance

theorem charListLe_total : ∀ as bs : List Char,
    charListLe as bs = true ∨ charListLe bs as = true := by
  intro as
  induction as with
  | nil => intro bs; left; rfl
  | cons a as2 ih =>
    intro bs
    cases bs with
    | nil => right; rfl
    | cons b bs2 =>
      by_cases hab : a.toNat < b.toNat
      · left; simp [charListLe, hab]
      · by_cases hba : b.toNat < a.toNat
        · right; simp [charListLe, hba]
        · cases ih bs2 with
          | inl h => left; simp [charListLe, hab, hba, h]
          | inr h => right; simp [charListLe, hab, hba, h]

theorem charListLe_trans : ∀ as bs cs : List Char, charListLe as bs = true →
    charListLe bs cs = true → charListLe as cs = true := by
  intro as
  induction as with
  | nil => intro bs cs h1 h2; rfl
  | cons a as2 ih =>
    intro bs cs h1 h2
    cases bs with
    | nil => simp [charListLe] at h1
    | cons b bs2 =>
      cases cs with
      | nil => simp [charListLe] at h2
      | cons c cs2 =>
        simp only [charListLe] at h1 h2 ⊢
        by_cases hab : a.toNat < b.toNat
        · by_cases hbc : b.toNat < c.toNat
          · simp [show a.toNat < c.toNat from by omega]
          · by_cases hcb : c.toNat < b.toNat
            · simp [hbc, hcb] at h2
            · simp [show a.toNat < c.toNat from by omega]
        · by_cases hba : b.toNat < a.toNat
          · simp [hab, hba] at h1
          · by_cases hbc : b.toNat < c.toNat
            · simp [show a.toNat < c.toNat from by omega]
            · by_cases hcb : c.toNat < b.toNat
              · simp [hbc, hcb] at h2
              · have hr1 : charListLe as2 bs2 = true := by simpa [hab, hba] using h1
                have hr2 : charListLe bs2 cs2 = true := by simpa [hbc, hcb] using h2
                simp [show ¬ a.toNat < c.toNat from by omega,
                  show ¬ c.toNat < a.toNat from by omega, ih bs2 cs2 hr1 hr2]

theorem charListLe_antisymm : ∀ as bs : List Char, charListLe as bs = true →
    charListLe bs as = true → as = bs := by
  intro as
  induction as with
  | nil =>
    intro bs h1 h2
    cases bs with
    | nil => rfl
    | cons b bs2 => simp [charListLe] at h2
  | cons a as2 ih =>
    intro bs h1 h2
    cases bs with
    | nil => simp [charListLe] at h1
    | cons b bs2 =>
      simp only [charListLe] at h1 h2
      by_cases hab : a.toNat < b.toNat
      · simp [show ¬ b.toNat < a.toNat from by omega, hab] at h2
      · by_cases hba : b.toNat < a.toNat
        · simp [hab, hba] at h1
        · have hr1 : charListLe as2 bs2 = true := by simpa [hab, hba] using h1
          have hr2 : charListLe bs2 as2 = true := by simpa [hab, hba] using h2
          have hn : a.toNat = b.toNat := by omega
          have hc : a = b := Char.ext (UInt32.ext hn)
          rw [hc, ih bs2 hr1 hr2]

instance : IsTotal String strLeProp :=
  ⟨fun a b => charListLe_total a.data b.data⟩

instance : IsTrans String strLeProp :=
  ⟨fun a b c => charListLe_trans a.data b.data c.data⟩

instance : IsAntisymm String strLeProp :=
  ⟨fun a b h1 h2 => by
    cases a with
    | mk da =>
      cases b with
      | mk db => exact congrArg String.mk (charListLe_antisymm da db h1 h2)⟩

/-! ## Model of `fold` (src/src/utils.rs, lines 108-140)

`pprof::Report.data` maps a key (thread name, thread id, frame sequence,
where each frame is a list of symbols) to an `isize` count.  The `fold`
function iterates the map; the iteration sequence is modelled as a list of
entries.  `usize` subtraction `len() - 1`: for a non-empty list both the
release (wrapping) semantics and `Nat` truncated subtraction give `len - 1`;
for an empty list the loop guarded by the index never executes under either,
so `Nat` subtraction is observationally faithful to the release build.  The
checked (debug, overflow-trapping) semantics is modelled separately below. -/

/-- Key of one `pprof::Report.data` entry: `thread_name`, `thread_id` and the
captured frame sequence (leaf first), each frame being a list of symbols. -/
structure FoldKey where
  thread_name : String
  thread_id : Nat
  frames : List (List String)
deriving DecidableEq

/-- Inner loop of `fold`: `let last_symbol = frame.len() - 1;` then the
symbols are written reversed, `";"`-terminated except at `last_symbol`. -/
def foldSymbols (frame : List String) : String :=
  concatAll ((frame.reverse.enum).map
    (fun p => if p.1 = frame.length - 1 then p.2 else p.2 ++ ";"))

/-- Outer loop of `fold`: `let last_frame = key.frames.len() - 1;` then the
frames are written reversed, with a `";"` after every frame except the one
enumerated at `last_frame`. -/
def foldFrames (frames : List (List String)) : String :=
  concatAll ((frames.reverse.enum).map
    (fun p => foldSymbols p.2 ++ (if p.1 ≠ frames.length - 1 then ";" else "")))

/-- Thread prefix written by `fold` when `with_thread_name` is set: the thread
name if non-empty, else the `Debug` rendering of the `u64` thread id (its
decimal digits), followed by `";"`. -/
def threadTag (with_thread_name : Bool) (key : FoldKey) : String :=
  if with_thread_name then
    (if key.thread_name ≠ "" then key.thread_name ++ ";"
     else toString key.thread_id ++ ";")
  else ""

/-- Everything `fold` writes for a single `(key, value)` entry. -/
def foldEntry (with_thread_name : Bool) (key : FoldKey) (value : Int) : String :=
  threadTag with_thread_name key ++ foldFrames key.frames ++ " " ++ toString value ++ "\n"

/-- `fold(report, with_thread_name, writer)`: the bytes written for the given
iteration sequence of `report.data`. -/
def fold (entries : List (FoldKey × Int)) (with_thread_name : Bool) : String :=
  concatAll (entries.map (fun e => foldEntry with_thread_name e.1 e.2))

/-- Checked `usize` subtraction: `a - b`, or `none` on underflow — the
debug-profile (overflow-trapping) semantics of Rust integer subtraction. -/
def checkedSub (a b : Nat) : Option Nat :=
  if b ≤ a then some (a - b) else none

/-- `fold` on a single entry under debug-profile arithmetic: both
`key.frames.len() - 1` and `frame.len() - 1` trap (yield `none`) on
underflow instead of wrapping. -/
def foldEntryChecked (with_thread_name : Bool) (key : FoldKey) (value : Int) :
    Option String := do
  let last_frame ← checkedSub key.frames.length 1
  let pieces ← (key.frames.reverse.enum).mapM (fun p => do
    let last_symbol ← checkedSub p.2.length 1
    pure (concatAll ((p.2.reverse.enum).map
            (fun q => if q.1 = last_symbol then q.2 else q.2 ++ ";"))
          ++ (if p.1 ≠ last_frame then ";" else "")))
  pure (threadTag with_thread_name key ++ concatAll pieces ++ " " ++ toString value ++ "\n")

/-- Modelled from the spec: the hardening §4.4 asks for ("implementations
should make this explicitly deterministic, e.g., by sorting keys") — the
encoding of a report with its rendered lines sorted, which the shown `fold`
does not do. -/
def sortedFold (entries : List (FoldKey × Int)) (with_thread_name : Bool) : String :=
  concatAll (List.insertionSort strLeProp
    (entries.map (fun e => foldEntry with_thread_name e.1 e.2)))

/-! ## Model of `merge_tags_with_app_name` (src/src/utils.rs, lines 65-79)

The `HashMap` argument is modelled as its entry list.  `Vec::sort` sorts by
`String`'s total order `strLe`; since that order is antisymmetric, every
sorting algorithm produces the same (unique) sorted permutation, so
`List.insertionSort strLeProp` is a faithful model of `Vec::sort` here. -/

def merge_tags_with_app_name (application_name : String)
    (tags : List (String × String)) : Except String String :=
  let tags_vec := (tags.filter (fun p => p.1 ≠ "__name__")).map
    (fun p => p.1 ++ "=" ++ p.2)
  let tags_str := joinSep "," (List.insertionSort strLeProp tags_vec)
  if tags_str ≠ "" then
    Except.ok (application_name ++ "\x7b" ++ tags_str ++ "\x7d")
  else
    Except.ok application_name

/-! ## Model of `pyroscope_ingest` (src/src/utils.rs, lines 12-63)

The function's observable behaviour is the HTTP request it issues (or the
absence of one).  `start` is a `u64`; `s_start + 10` is modelled with the
release-profile wrapping semantics `% 2 ^ 64`. -/

/-- `u64::checked_rem`. -/
def checkedRem (a b : Nat) : Option Nat :=
  if b = 0 then none else some (a % b)

/-- `let s_start = start - start.checked_rem(10).unwrap();` -/
def sStart (start : Nat) : Nat :=
  start - (checkedRem start 10).getD 0

/-- `let s_until = s_start + 10;` with u64 wrap-around. -/
def sUntil (start : Nat) : Nat :=
  (sStart start + 10) % 2 ^ 64

/-- The POST request built by `pyroscope_ingest`: target URL, content type,
query parameters in order, body bytes. -/
structure PostRequest where
  url : String
  contentType : String
  query : List (String × String)
  body : List Nat
deriving DecidableEq

/-- Network behaviour of one `pyroscope_ingest` call. -/
inductive IngestAction where
  | noRequest : IngestAction
  | request : PostRequest → IngestAction
deriving DecidableEq

def pyroscope_ingest (start : Nat) (sample_rate : Int) (buffer : List Nat)
    (url application_name : String) : IngestAction :=
  if buffer.isEmpty then IngestAction.noRequest
  else
    IngestAction.request
      ⟨url ++ "/ingest", "binary/octet-stream",
        [("name", application_name),
         ("from", toString (sStart start)),
         ("until", toString (sUntil start)),
         ("format", "folded"),
         ("sampleRate", toString sample_rate),
         ("spyName", "pprof-rs")],
        buffer⟩

/-! ## Model of the `Rbspy` backend
(src/pyroscope_backends/pyroscope_rbspy/src/lib.rs)

Types consumed from outside the shown sources (`pyroscope::backend::State`,
`pyroscope::backend::{Report, StackFrame, StackTrace}`, `rbspy::Sampler`,
`rbspy` stack types, `std::sync::mpsc` channels) are modelled below from the
spec; each such definition is marked.  Mutation of `&mut self` is modelled by
returning the updated struct next to the `Result`; the external calls made to
the sampler are returned as an explicit effect list. -/

/-- Modelled from the spec: `pyroscope::backend::State` (not among the shown
sources).  The state diagram in the spec names exactly the three states the
`Rbspy` impl mentions: Uninitialized, Ready, Running. -/
inductive State where
  | Uninitialized : State
  | Ready : State
  | Running : State
deriving DecidableEq

/-- `RbspyConfig` (src lib.rs lines 12-24). -/
structure RbspyConfig where
  pid : Option Int
  sample_rate : Nat
  lock_process : Bool
  time_limit : Option Nat
  with_subprocesses : Bool
deriving DecidableEq

/-- `RbspyConfig::default` (src lib.rs lines 26-36). -/
def RbspyConfig.default : RbspyConfig := ⟨none, 100, false, none, false⟩

/-- `RbspyConfig::new` (src lib.rs lines 38-45). -/
def RbspyConfig.new (pid : Int) : RbspyConfig := ⟨some pid, 100, false, none, false⟩

/-- Modelled from the spec: the external `rbspy::sampler::Sampler` capability
(§6), holding the five arguments of `Sampler::new(pid, sample_rate,
lock_process, time_limit, with_subprocesses)`. -/
structure Sampler where
  pid : Int
  sample_rate : Nat
  lock_process : Bool
  time_limit : Option Nat
  with_subprocesses : Bool
deriving DecidableEq

/-- Modelled from the spec: a raw `rbspy::StackFrame` as used by the
conversion impls in src lib.rs lines 266-277 (`name`, `relative_path`,
`absolute_path`, `lineno`). -/
structure RbspyStackFrame where
  name : String
  relative_path : String
  absolute_path : Option String
  lineno : Nat
deriving DecidableEq

/-- Modelled from the spec: a raw `rbspy::StackTrace` as used by the
conversion impl in src lib.rs lines 287-299. -/
structure RbspyStackTrace where
  pid : Option Int
  thread_id : Option Nat
  trace : List RbspyStackFrame
deriving DecidableEq

/-- Modelled from the spec: `pyroscope::backend::StackFrame` (§3 Frame), the
six optional fields the conversion code fills. -/
structure StackFrame where
  module : Option String
  name : Option String
  filename : Option String
  relative_path : Option String
  absolute_path : Option String
  line : Option Nat
deriving DecidableEq

/-- Modelled from the spec: `pyroscope::backend::StackTrace` (§3 Trace). -/
structure StackTrace where
  pid : Option Nat
  thread_id : Option Nat
  thread_name : Option String
  frames : List StackFrame
deriving DecidableEq

/-- `impl From<rbspy::StackFrame> for StackFrameWrapper`
(src lib.rs lines 266-277). -/
def stackFrameOfRbspy (frame : RbspyStackFrame) : StackFrame :=
  ⟨none, some frame.name, some frame.relative_path, some frame.relative_path,
    frame.absolute_path, some frame.lineno⟩

/-- `impl From<rbspy::StackTrace> for StackTraceWrapper`
(src lib.rs lines 287-299); `pid as u32` is the wrapping i32→u32 cast. -/
def stackTraceOfRbspy (trace : RbspyStackTrace) : StackTrace :=
  ⟨trace.pid.map (fun pid => (pid.emod (2 ^ 32)).toNat),
    trace.thread_id, none, trace.trace.map stackFrameOfRbspy⟩

/-- Modelled from the spec: `pyroscope::backend::Report` (§4.3), the mapping
from trace key to occurrence count, as an association list. -/
abbrev Report := List (StackTrace × Nat)

/-- Modelled from the spec: `Report::record` (§4.3) increments the count of
the key by 1, inserting it with count 1 if absent. -/
def Report.record (r : Report) (t : StackTrace) : Report :=
  if r.any (fun p => p.1 == t) then
    r.map (fun p => if p.1 == t then (p.1, p.2 + 1) else p)
  else r ++ [(t, 1)]

/-- Modelled from the spec: `Report::clear` (§4.3) empties the mapping. -/
def Report.clear (_ : Report) : Report := []

/-- Modelled from the spec: the symbol a frame contributes to the folded
encoding (§4.4, "its most-identifying symbol"). -/
def frameSymbol (f : StackFrame) : String := f.name.getD ""

/-- Modelled from the spec: `Report::to_string` (§4.4 encode): one line per
entry, frame symbols root-first joined by ";", a space, the decimal count
and a newline. -/
def Report.toStringFolded (r : Report) : String :=
  concatAll (r.map (fun p =>
    joinSep ";" (p.1.frames.reverse.map frameSymbol) ++ " " ++ toString p.2 ++ "\n"))

/-- Modelled from the spec: the consumer end of the bounded
`sync_channel(queue_size)` carrying raw traces — its capacity and the
messages currently buffered. -/
structure SyncChannel where
  capacity : Nat
  pending : List RbspyStackTrace
deriving DecidableEq

/-- A message on the sampler's error channel
(`Result<(), anyhow::Error>`). -/
inductive SamplerMsg where
  | ok : SamplerMsg
  | err : String → SamplerMsg
deriving DecidableEq

/-- Capacity of a producer end handed to the sampler: `sync_channel(n)` is
bounded, `channel()` is unbounded. -/
inductive ChannelCap where
  | bounded : Nat → ChannelCap
  | unbounded : ChannelCap
deriving DecidableEq

/-- External calls a backend operation makes on the sampler. -/
inductive Effect where
  | samplerStart : ChannelCap → ChannelCap → Effect
  | samplerStop : Effect
deriving DecidableEq

/-- The `Rbspy` struct (src lib.rs lines 74-88).  The `Arc<Mutex<Report>>`
buffer is modelled as the report value; the receivers as the channel
contents. -/
structure Rbspy where
  state : State
  config : RbspyConfig
  sampler : Option Sampler
  stack_receiver : Option SyncChannel
  error_receiver : Option (List SamplerMsg)
  buffer : Report
deriving DecidableEq

/-- `Rbspy::new` (src lib.rs lines 96-107). -/
def Rbspy.new (config : RbspyConfig) : Rbspy :=
  ⟨State.Uninitialized, config, none, none, none, []⟩

def msgAlreadyInitialized : String := "Rbspy: Backend is already Initialized"
def msgMissingProcessId : String := "Rbspy: No Process ID Specified"
def msgNotReady : String := "Rbspy: Backend is not Ready"
def msgNotRunning : String := "Rbspy: Backend is not Running"
def msgSamplerNotSet : String := "Rbspy: Sampler is not set"

/-- `Backend::initialize for Rbspy` (src lib.rs lines 126-150).  (`initialize`
is a reserved word in Lean, hence the `Impl` suffix.) -/
def Rbspy.initializeImpl (b : Rbspy) : Rbspy × Except String Unit :=
  if b.state ≠ State.Uninitialized then
    (b, Except.error msgAlreadyInitialized)
  else
    match b.config.pid with
    | none => (b, Except.error msgMissingProcessId)
    | some pid =>
      ({ b with
          sampler := some ⟨pid, b.config.sample_rate, b.config.lock_process,
            b.config.time_limit, b.config.with_subprocesses⟩,
          state := State.Ready },
        Except.ok ())

/-- `Backend::start for Rbspy` (src lib.rs lines 152-191).  `samplerResult`
is the outcome of the external `sampler.start(stack_sender, error_sender)`
call; the error branch applies the `"Rbspy: Sampler Error: {}"` format. -/
def Rbspy.start (samplerResult : Except String Unit) (b : Rbspy) :
    Rbspy × Except String Unit × List Effect :=
  if b.state ≠ State.Ready then
    (b, Except.error msgNotReady, [])
  else
    let queue_size := b.config.sample_rate * 10 * 100
    let b1 := { b with stack_receiver := some ⟨queue_size, []⟩,
                       error_receiver := some [] }
    match b1.sampler with
    | none => (b1, Except.error msgSamplerNotSet, [])
    | some _ =>
      match samplerResult with
      | Except.ok _ =>
        ({ b1 with state := State.Running }, Except.ok (),
          [Effect.samplerStart (ChannelCap.bounded queue_size) ChannelCap.unbounded])
      | Except.error e =>
        (b1, Except.error ("Rbspy: Sampler Error: " ++ e),
          [Effect.samplerStart (ChannelCap.bounded queue_size) ChannelCap.unbounded])

/-- `Backend::stop for Rbspy` (src lib.rs lines 193-209). -/
def Rbspy.stop (b : Rbspy) : Rbspy × Except String Unit × List Effect :=
  if b.state ≠ State.Running then
    (b, Except.error msgNotRunning, [])
  else
    match b.sampler with
    | none => (b, Except.error msgSamplerNotSet, [])
    | some _ => ({ b with state := State.Ready }, Except.ok (), [Effect.samplerStop])

/-- `Backend::report for Rbspy` (src lib.rs lines 211-255): drains the error
channel (messages are logged, modelled as discarding them), drains the trace
channel recording each converted trace into the shared buffer, encodes the
buffer, clears it, and returns the encoded bytes.  Mutex acquisition is
modelled as succeeding (single-actor model; poisoning is a concurrency
phenomenon outside the embedding). -/
def Rbspy.report (b : Rbspy) : Rbspy × Except String String :=
  if b.state ≠ State.Running then
    (b, Except.error msgNotRunning)
  else
    match b.error_receiver with
    | none => (b, Except.error "Rbspy: error receiver is not set")
    | some _ =>
      let b1 := { b with error_receiver := some ([] : List SamplerMsg) }
      match b1.stack_receiver with
      | none => (b1, Except.error "Rbspy: StackTrace receiver is not set")
      | some ch =>
        let buf := (ch.pending.map stackTraceOfRbspy).foldl Report.record b1.buffer
        ({ b1 with stack_receiver := some ⟨ch.capacity, []⟩,
                   buffer := Report.clear buf },
          Except.ok (Report.toStringFolded buf))

/-! ## Helper lemmas: the enumerate-and-compare-index loops of `fold` compute
separator joins. -/

theorem if_index_shape (n : Nat) :
    (fun p : Nat × String => if p.1 = n then p.2 else p.2 ++ ";")
      = (fun p : Nat × String => p.2 ++ (if p.1 ≠ n then ";" else "")) := by
  funext p
  by_cases h : p.1 = n <;> simp [h]

theorem concatAll_enumFrom_gen {α : Type} (r : α → String) (l : List α) :
    ∀ k n : Nat, n + 1 = k + l.length →
      concatAll ((List.enumFrom k l).map
          (fun p => r p.2 ++ (if p.1 ≠ n then ";" else "")))
        = joinSep ";" (l.map r) := by
  induction l with
  | nil => intro k n h; rfl
  | cons a t ih =>
    intro k n h
    cases t with
    | nil =>
      have hk : k = n := by simp at h; omega
      simp [List.enumFrom, concatAll, joinSep, hk]
    | cons b t2 =>
      have hrec := ih (k + 1) n (by simp only [List.length_cons] at h ⊢; omega)
      have e1 : List.enumFrom k (a :: b :: t2)
          = (k, a) :: List.enumFrom (k + 1) (b :: t2) := rfl
      rw [e1, List.map_cons, concatAll_cons, hrec]
      have hne : (k ≠ n) := by simp only [List.length_cons] at h; omega
      rw [if_pos hne]
      rfl

theorem foldSymbols_eq (f : List String) : foldSymbols f = joinSep ";" f.reverse := by
  cases f with
  | nil => rfl
  | cons x xs =>
    show concatAll (((x :: xs).reverse.enum).map
        (fun p => if p.1 = (x :: xs).length - 1 then p.2 else p.2 ++ ";"))
      = joinSep ";" (x :: xs).reverse
    rw [if_index_shape ((x :: xs).length - 1)]
    have h := concatAll_enumFrom_gen id (x :: xs).reverse 0 ((x :: xs).length - 1)
      (by simp)
    simpa [List.map_id, List.enum] using h

theorem foldFrames_eq (frames : List (List String)) :
    foldFrames frames = joinSep ";" (frames.reverse.map (fun f => joinSep ";" f.reverse)) := by
  have hfun : foldSymbols = (fun f => joinSep ";" f.reverse) := funext foldSymbols_eq
  cases frames with
  | nil => rfl
  | cons x xs =>
    show concatAll (((x :: xs).reverse.enum).map
        (fun p => foldSymbols p.2 ++ (if p.1 ≠ (x :: xs).length - 1 then ";" else "")))
      = _
    rw [hfun]
    have h := concatAll_enumFrom_gen (fun f => joinSep ";" f.reverse)
      (x :: xs).reverse 0 ((x :: xs).length - 1) (by simp)
    simpa [List.enum] using h

/-! ## Claim theorems for the folded-format encoder -/

/-- Claim C3: for every report entry, `fold` writes the frame sequence
reversed relative to capture order (root first), with frame symbols joined by
";" and no trailing separator on the last element of the last frame, then a
single space, the decimal count and a newline; with `with_thread_name` set it
first writes the thread name if non-empty, else the debug rendering of the
thread id, followed by ";".  In particular one key with frames
`[f0 (leaf), f1, f2 (root)]` and count 7, without thread prefix, encodes to
exactly `"f2;f1;f0 7\n"`. -/
theorem fold_folded_format :
    (∀ (entries : List (FoldKey × Int)) (w : Bool),
      fold entries w = concatAll (entries.map (fun e =>
        threadTag w e.1
          ++ joinSep ";" (e.1.frames.reverse.map (fun f => joinSep ";" f.reverse))
          ++ " " ++ toString e.2 ++ "\n")))
    ∧ fold [(⟨"", 0, [["f0"], ["f1"], ["f2"]]⟩, 7)] false = "f2;f1;f0 7\n" := by
  constructor
  · intro entries w
    unfold fold
    have h : (fun e : FoldKey × Int => foldEntry w e.1 e.2)
        = (fun e : FoldKey × Int =>
            threadTag w e.1
              ++ joinSep ";" (e.1.frames.reverse.map (fun f => joinSep ";" f.reverse))
              ++ " " ++ toString e.2 ++ "\n") := by
      funext e
      unfold foldEntry
      rw [foldFrames_eq]
    rw [h]
  · rfl

/-- Claim C4 (amended): for a report key with an empty frame sequence, `fold`
under the release (wrapping-arithmetic) build still succeeds and emits the
thread prefix (when applicable), a space, the decimal count and a newline
with no frame text; under debug (overflow-trapping) arithmetic the
subtraction `key.frames.len() - 1` underflows instead, so the no-panic part
of the claim holds only for release builds. -/
theorem fold_empty_frames (key : FoldKey) (value : Int) (w : Bool)
    (h : key.frames = []) :
    foldEntry w key value = threadTag w key ++ " " ++ toString value ++ "\n" := by
  unfold foldEntry
  rw [h]
  have h0 : foldFrames [] = "" := rfl
  rw [h0, String.append_empty]

/-- Witness for `fold_empty_frames` at a concrete zero-frame key. -/
theorem fold_empty_frames_witness :
    (⟨"main", 5, []⟩ : FoldKey).frames = []
    ∧ foldEntry true ⟨"main", 5, []⟩ 3 = "main; 3\n" := by
  refine ⟨rfl, ?_⟩
  rw [fold_empty_frames ⟨"main", 5, []⟩ 3 true rfl]
  rfl

/-- Counterexample for claim C4 as stated: under the debug (checked)
arithmetic that Rust applies when overflow checks are enabled, the entry
whose key has zero frames makes `key.frames.len() - 1` underflow, so the
encoding traps instead of succeeding — the panic branch is reachable. -/
theorem fold_empty_frames_checked_cex :
    foldEntryChecked false ⟨"", 0, []⟩ 7 = none := rfl

/-- Claim C7 (amended): `fold` is deterministic only as a function of the
iteration sequence handed to it; the code iterates the `HashMap` in its own
(hash-seed-dependent) order and does not sort keys, so equal mappings
enumerated in different orders may produce different bytes.  The hardening
the spec asks for — sorting the rendered lines — does make the encoding
invariant under re-enumeration. -/
theorem sortedFold_perm_invariant (w : Bool) (l1 l2 : List (FoldKey × Int))
    (h : l1.Perm l2) : sortedFold l1 w = sortedFold l2 w := by
  unfold sortedFold
  congr 1
  refine List.eq_of_perm_of_sorted ?_ (List.sorted_insertionSort _ _)
    (List.sorted_insertionSort _ _)
  exact (List.perm_insertionSort _ _).trans
    ((h.map _).trans (List.perm_insertionSort _ _).symm)

/-- Witness for `sortedFold_perm_invariant` on two enumeration orders of the
same two-entry mapping. -/
theorem sortedFold_perm_invariant_witness :
    List.Perm [((⟨"", 0, [["a"]]⟩ : FoldKey), (1 : Int)), (⟨"", 0, [["b"]]⟩, 2)]
      [(⟨"", 0, [["b"]]⟩, 2), (⟨"", 0, [["a"]]⟩, 1)]
    ∧ sortedFold [(⟨"", 0, [["a"]]⟩, 1), (⟨"", 0, [["b"]]⟩, 2)] false
        = sortedFold [(⟨"", 0, [["b"]]⟩, 2), (⟨"", 0, [["a"]]⟩, 1)] false :=
  ⟨List.Perm.swap _ _ _,
    sortedFold_perm_invariant false _ _ (List.Perm.swap _ _ _)⟩

/-- Counterexample for claim C7 as stated: the same two-entry mapping
enumerated in its two possible orders produces different byte sequences, so
the shown `fold` is not byte-stable over identical report contents. -/
theorem fold_enumeration_order_dependent :
    List.Perm [((⟨"", 0, [["a"]]⟩ : FoldKey), (1 : Int)), (⟨"", 0, [["b"]]⟩, 2)]
      [(⟨"", 0, [["b"]]⟩, 2), (⟨"", 0, [["a"]]⟩, 1)]
    ∧ fold [(⟨"", 0, [["a"]]⟩, 1), (⟨"", 0, [["b"]]⟩, 2)] false
        ≠ fold [(⟨"", 0, [["b"]]⟩, 2), (⟨"", 0, [["a"]]⟩, 1)] false :=
  ⟨List.Perm.swap _ _ _, by decide⟩

/-! ## Claim theorems for the tag/name merger -/

theorem rendered_ne_empty (p : String × String) : p.1 ++ "=" ++ p.2 ≠ "" := by
  intro h
  have hl := congrArg String.length h
  rw [String.length_append, String.length_append] at hl
  have h1 : "=".length = 1 := rfl
  have h2 : "".length = 0 := rfl
  omega

theorem joinSep_ne_empty (a : String) (t : List String) (ha : a ≠ "") :
    joinSep "," (a :: t) ≠ "" := by
  cases t with
  | nil => simpa [joinSep] using ha
  | cons b t2 =>
    intro h
    have hl := congrArg String.length h
    rw [show joinSep "," (a :: b :: t2) = a ++ "," ++ joinSep "," (b :: t2) from rfl] at hl
    rw [String.length_append, String.length_append] at hl
    have h1 : ",".length = 1 := rfl
    have h2 : "".length = 0 := rfl
    omega

/-- Claim C2: `merge_tags_with_app_name(N, T)` drops every tag whose key is
`"__name__"`, renders the rest as `key=value`, sorts the rendered strings
lexicographically ascending, joins them with `","`, and returns
`N ++ "\x7b" ++ tags ++ "\x7d"` when the list is non-empty and `N` unchanged
when it is empty; it is total (always `Ok`), its output does not depend on
the enumeration order of the mapping, and `merge(N, empty) = N`. -/
theorem merge_tags_spec :
    (∀ (N : String) (T : List (String × String)), ∃ l : List String,
        ((T.filter (fun p => p.1 ≠ "__name__")).map (fun p => p.1 ++ "=" ++ p.2)).Perm l
        ∧ List.Sorted strLeProp l
        ∧ merge_tags_with_app_name N T =
            Except.ok (if l.isEmpty then N else N ++ "\x7b" ++ joinSep "," l ++ "\x7d"))
    ∧ (∀ (N : String) (T1 T2 : List (String × String)), T1.Perm T2 →
        merge_tags_with_app_name N T1 = merge_tags_with_app_name N T2)
    ∧ (∀ N : String, merge_tags_with_app_name N [] = Except.ok N) := by
  refine ⟨?_, ?_, ?_⟩
  · intro N T
    refine ⟨List.insertionSort strLeProp
        ((T.filter (fun p => p.1 ≠ "__name__")).map (fun p => p.1 ++ "=" ++ p.2)),
      (List.perm_insertionSort _ _).symm, List.sorted_insertionSort _ _, ?_⟩
    simp only [merge_tags_with_app_name]
    cases hs : List.insertionSort strLeProp
        ((T.filter (fun p => p.1 ≠ "__name__")).map (fun p => p.1 ++ "=" ++ p.2)) with
    | nil => simp [joinSep]
    | cons a t =>
      have hmem : a ∈ List.insertionSort strLeProp
          ((T.filter (fun p => p.1 ≠ "__name__")).map (fun p => p.1 ++ "=" ++ p.2)) := by
        rw [hs]; exact List.mem_cons_self a t
      have hmem2 : a ∈ (T.filter (fun p => p.1 ≠ "__name__")).map
          (fun p => p.1 ++ "=" ++ p.2) :=
        (List.perm_insertionSort _ _).mem_iff.mp hmem
      obtain ⟨p, _, hpe⟩ := List.mem_map.mp hmem2
      have ha : a ≠ "" := hpe ▸ rendered_ne_empty p
      have hne : joinSep "," (a :: t) ≠ "" := joinSep_ne_empty a t ha
      rw [if_pos hne]
      simp
  · intro N T1 T2 h
    have hp : ((T1.filter (fun p => p.1 ≠ "__name__")).map (fun p => p.1 ++ "=" ++ p.2)).Perm
        ((T2.filter (fun p => p.1 ≠ "__name__")).map (fun p => p.1 ++ "=" ++ p.2)) :=
      (h.filter _).map _
    have he : List.insertionSort strLeProp
          ((T1.filter (fun p => p.1 ≠ "__name__")).map (fun p => p.1 ++ "=" ++ p.2))
        = List.insertionSort strLeProp
          ((T2.filter (fun p => p.1 ≠ "__name__")).map (fun p => p.1 ++ "=" ++ p.2)) :=
      List.eq_of_perm_of_sorted
        ((List.perm_insertionSort _ _).trans (hp.trans (List.perm_insertionSort _ _).symm))
        (List.sorted_insertionSort _ _) (List.sorted_insertionSort _ _)
    simp only [merge_tags_with_app_name]
    rw [he]
  · intro N
    rfl

/-- Witness for `merge_tags_spec`: the two enumeration orders of the mapping
with entries a=1, b=2 agree, and the merged name is the sorted braced form. -/
theorem merge_tags_spec_witness :
    List.Perm [(("b", "2") : String × String), ("a", "1")] [("a", "1"), ("b", "2")]
    ∧ merge_tags_with_app_name "app" [("b", "2"), ("a", "1")]
        = merge_tags_with_app_name "app" [("a", "1"), ("b", "2")]
    ∧ merge_tags_with_app_name "app" [("a", "1"), ("b", "2")]
        = Except.ok "app\x7ba=1,b=2\x7d" :=
  ⟨List.Perm.swap _ _ _,
    merge_tags_spec.2.1 "app" _ _ (List.Perm.swap _ _ _),
    rfl⟩

/-! ## Claim theorems for the ingestion client -/

theorem sStart_eq (start : Nat) : sStart start = start - start % 10 := rfl

/-- Claim C5 (amended): `pyroscope_ingest` returns success with no network
call whenever the body buffer is empty; otherwise, for every start timestamp
with `start ≤ 2^64 - 7` it computes `from = start - (start mod 10)` and
`until = from + 10` and issues a single POST to `{endpoint}/ingest` with the
query parameters `name`, `from`, `until`, `format=folded`, `sampleRate` and
`spyName` and the buffer as payload.  (For the six u64 values
`start ≥ 2^64 - 6` the `u64` addition `from + 10` wraps, so there
`until ≠ from + 10`.) -/
theorem pyroscope_ingest_spec (start : Nat) (sample_rate : Int)
    (buffer : List Nat) (url app : String) (h : start ≤ 2 ^ 64 - 7) :
    pyroscope_ingest start sample_rate [] url app = IngestAction.noRequest
    ∧ sStart start = start - start % 10
    ∧ sUntil start = start - start % 10 + 10
    ∧ (buffer ≠ [] → pyroscope_ingest start sample_rate buffer url app =
        IngestAction.request
          ⟨url ++ "/ingest", "binary/octet-stream",
            [("name", app),
             ("from", toString (start - start % 10)),
             ("until", toString (start - start % 10 + 10)),
             ("format", "folded"),
             ("sampleRate", toString sample_rate),
             ("spyName", "pprof-rs")],
            buffer⟩) := by
  have hu : sUntil start = start - start % 10 + 10 := by
    unfold sUntil
    rw [sStart_eq]
    exact Nat.mod_eq_of_lt (by omega)
  refine ⟨rfl, rfl, hu, ?_⟩
  intro hb
  unfold pyroscope_ingest
  rw [if_neg (by simpa [List.isEmpty_iff] using hb)]
  rw [sStart_eq, hu]

/-- Witness for `pyroscope_ingest_spec`: window start 1005 yields
`from = 1000` and `until = 1010`. -/
theorem pyroscope_ingest_spec_witness :
    ((1005 : Nat) ≤ 2 ^ 64 - 7 ∧ ([0] : List Nat) ≠ [])
    ∧ pyroscope_ingest 1005 100 [0] "http://localhost:4040" "app" =
      IngestAction.request
        ⟨"http://localhost:4040/ingest", "binary/octet-stream",
          [("name", "app"), ("from", "1000"), ("until", "1010"),
           ("format", "folded"), ("sampleRate", "100"), ("spyName", "pprof-rs")],
          [0]⟩ := by
  refine ⟨⟨by decide, by decide⟩, ?_⟩
  have h := (pyroscope_ingest_spec 1005 100 [0] "http://localhost:4040" "app"
    (by decide)).2.2.2 (by decide)
  exact h.trans (by decide)

/-- Counterexample for claim C5 as stated ("for every start timestamp ...
until = from + 10"): at `start = 2^64 - 1` the computed `until` is 4, not
`from + 10 = 2^64 + 4`, because the u64 addition wraps. -/
theorem pyroscope_ingest_wrap_cex :
    sStart (2 ^ 64 - 1) = 2 ^ 64 - 6
    ∧ sUntil (2 ^ 64 - 1) = 4
    ∧ sUntil (2 ^ 64 - 1) ≠ sStart (2 ^ 64 - 1) + 10 := by
  refine ⟨by decide, by decide, by decide⟩

/-- Claim C10: the window arithmetic of `pyroscope_ingest` is panic-free
under a bound on the timestamp: `checked_rem 10` never returns `none`; the
subtraction `start - (start mod 10)` never underflows; for every
`start ≤ 2^64 - 7` the addition `(start - start mod 10) + 10` stays below
`2^64`; and for every `start` within 5 of `2^64 - 1` that addition
overflows u64. -/
theorem ingest_window_arithmetic :
    (∀ a : Nat, checkedRem a 10 ≠ none)
    ∧ (∀ start : Nat, (checkedRem start 10).getD 0 ≤ start)
    ∧ (∀ start : Nat, start ≤ 2 ^ 64 - 7 → sStart start + 10 < 2 ^ 64)
    ∧ (∀ start : Nat, 2 ^ 64 - 1 - 5 ≤ start → start ≤ 2 ^ 64 - 1 →
        2 ^ 64 ≤ sStart start + 10) := by
  refine ⟨?_, ?_, ?_, ?_⟩
  · intro a
    simp [checkedRem]
  · intro start
    simp only [checkedRem]
    rw [if_neg (by omega)]
    exact Nat.mod_le start 10
  · intro start h
    rw [sStart_eq]
    omega
  · intro start h1 h2
    rw [sStart_eq]
    omega

/-- Witness for `ingest_window_arithmetic` at `start = 1005` (no overflow)
and `start = 2^64 - 1` (overflow). -/
theorem ingest_window_arithmetic_witness :
    checkedRem 1005 10 ≠ none
    ∧ (checkedRem 1005 10).getD 0 ≤ 1005
    ∧ ((1005 : Nat) ≤ 2 ^ 64 - 7 ∧ sStart 1005 + 10 < 2 ^ 64)
    ∧ ((2 : Nat) ^ 64 - 1 - 5 ≤ 2 ^ 64 - 1 ∧ (2 : Nat) ^ 64 - 1 ≤ 2 ^ 64 - 1
        ∧ 2 ^ 64 ≤ sStart (2 ^ 64 - 1) + 10) :=
  ⟨ingest_window_arithmetic.1 1005,
    ingest_window_arithmetic.2.1 1005,
    ⟨by decide, ingest_window_arithmetic.2.2.1 1005 (by decide)⟩,
    ⟨by decide, by decide,
      ingest_window_arithmetic.2.2.2 (2 ^ 64 - 1) (by decide) (by decide)⟩⟩

/-! ## Claim theorems for the backend state machine -/

/-- Claim C1: the backend is a state machine over Uninitialized, Ready,
Running: `initialize` succeeds only from Uninitialized and moves to Ready;
`start` succeeds only from Ready and moves to Running; `stop` succeeds only
from Running and moves back to Ready; `report` succeeds only in Running and
leaves the state Running; in any other state the operation fails with the
corresponding lifecycle error (NotReady for `start` before `initialize`,
AlreadyInitialized for a second `initialize`, NotRunning for `report` after
`stop`). -/
theorem backend_state_machine :
    (∀ b : Rbspy, (Rbspy.initializeImpl b).2 = Except.ok () →
        b.state = State.Uninitialized
        ∧ (Rbspy.initializeImpl b).1.state = State.Ready)
    ∧ (∀ b : Rbspy, b.state ≠ State.Uninitialized →
        Rbspy.initializeImpl b = (b, Except.error msgAlreadyInitialized))
    ∧ (∀ (b : Rbspy) (r : Except String Unit),
        (Rbspy.start r b).2.1 = Except.ok () →
        b.state = State.Ready ∧ (Rbspy.start r b).1.state = State.Running)
    ∧ (∀ (b : Rbspy) (r : Except String Unit), b.state ≠ State.Ready →
        Rbspy.start r b = (b, Except.error msgNotReady, []))
    ∧ (∀ b : Rbspy, (Rbspy.stop b).2.1 = Except.ok () →
        b.state = State.Running ∧ (Rbspy.stop b).1.state = State.Ready)
    ∧ (∀ b : Rbspy, b.state ≠ State.Running →
        Rbspy.stop b = (b, Except.error msgNotRunning, []))
    ∧ (∀ (b : Rbspy) (s : String), (Rbspy.report b).2 = Except.ok s →
        b.state = State.Running ∧ (Rbspy.report b).1.state = State.Running)
    ∧ (∀ b : Rbspy, b.state ≠ State.Running →
        Rbspy.report b = (b, Except.error msgNotRunning)) := by
  refine ⟨?_, ?_, ?_, ?_, ?_, ?_, ?_, ?_⟩
  · intro b h
    by_cases hs : b.state = State.Uninitialized
    · refine ⟨hs, ?_⟩
      cases hp : b.config.pid with
      | none => simp [Rbspy.initializeImpl, hs, hp] at h
      | some pid => simp [Rbspy.initializeImpl, hs, hp]
    · exfalso
      simp [Rbspy.initializeImpl, hs] at h
  · intro b hs
    simp [Rbspy.initializeImpl, hs]
  · intro b r h
    by_cases hs : b.state = State.Ready
    · refine ⟨hs, ?_⟩
      cases hsam : b.sampler with
      | none => simp [Rbspy.start, hs, hsam] at h
      | some s =>
        cases r with
        | ok u => simp [Rbspy.start, hs, hsam]
        | error e => simp [Rbspy.start, hs, hsam] at h
    · exfalso
      simp [Rbspy.start, hs] at h
  · intro b r hs
    simp [Rbspy.start, hs]
  · intro b h
    by_cases hs : b.state = State.Running
    · refine ⟨hs, ?_⟩
      cases hsam : b.sampler with
      | none => simp [Rbspy.stop, hs, hsam] at h
      | some s => simp [Rbspy.stop, hs, hsam]
    · exfalso
      simp [Rbspy.stop, hs] at h
  · intro b hs
    simp [Rbspy.stop, hs]
  · intro b s h
    by_cases hs : b.state = State.Running
    · refine ⟨hs, ?_⟩
      cases her : b.error_receiver with
      | none => simp [Rbspy.report, hs, her] at h
      | some msgs =>
        cases hsr : b.stack_receiver with
        | none => simp [Rbspy.report, hs, her, hsr] at h
        | some ch => simp [Rbspy.report, hs, her, hsr]
    · exfalso
      simp [Rbspy.report, hs] at h
  · intro b hs
    simp [Rbspy.report, hs]

/-- Witness for `backend_state_machine`: a second `initialize` on an
already-Ready backend fails with the AlreadyInitialized message; `start`
before `initialize` fails with NotReady; `report` on a Ready (stopped)
backend fails with NotRunning. -/
theorem backend_state_machine_witness :
    Rbspy.initializeImpl
        ⟨State.Ready, ⟨some 1, 100, false, none, false⟩, none, none, none, []⟩
      = (⟨State.Ready, ⟨some 1, 100, false, none, false⟩, none, none, none, []⟩,
          Except.error msgAlreadyInitialized)
    ∧ Rbspy.start (Except.ok ()) (Rbspy.new (RbspyConfig.new 1))
      = (Rbspy.new (RbspyConfig.new 1), Except.error msgNotReady, [])
    ∧ Rbspy.report
        ⟨State.Ready, ⟨some 1, 100, false, none, false⟩, none, none, none, []⟩
      = (⟨State.Ready, ⟨some 1, 100, false, none, false⟩, none, none, none, []⟩,
          Except.error msgNotRunning) :=
  ⟨backend_state_machine.2.1 _ (by decide),
    backend_state_machine.2.2.2.1 _ (Except.ok ()) (by decide),
    backend_state_machine.2.2.2.2.2.2.2 _ (by decide)⟩

/-- Claim C9: when `initialize` is called with state different from
Uninitialized while the process id is also missing, the AlreadyInitialized
error is returned (the state check precedes the missing-target check); the
MissingTarget ("No Process ID Specified") error is only returned from the
Uninitialized state; and on either error the sampler is not constructed. -/
theorem initialize_error_order :
    (∀ b : Rbspy, b.state ≠ State.Uninitialized →
        Rbspy.initializeImpl b = (b, Except.error msgAlreadyInitialized))
    ∧ (∀ b : Rbspy, (Rbspy.initializeImpl b).2 = Except.error msgMissingProcessId →
        b.state = State.Uninitialized)
    ∧ (∀ b : Rbspy, (Rbspy.initializeImpl b).2 ≠ Except.ok () →
        (Rbspy.initializeImpl b).1.sampler = b.sampler) := by
  refine ⟨?_, ?_, ?_⟩
  · intro b hs
    simp [Rbspy.initializeImpl, hs]
  · intro b h
    by_cases hs : b.state = State.Uninitialized
    · exact hs
    · exfalso
      simp [Rbspy.initializeImpl, hs, msgAlreadyInitialized, msgMissingProcessId] at h
  · intro b h
    by_cases hs : b.state = State.Uninitialized
    · cases hp : b.config.pid with
      | none => simp [Rbspy.initializeImpl, hs, hp]
      | some pid =>
        exfalso
        simp [Rbspy.initializeImpl, hs, hp] at h
    · simp [Rbspy.initializeImpl, hs]

/-- Witness for `initialize_error_order`: a Ready backend with no process id
gets AlreadyInitialized (not MissingTarget), and its sampler is untouched. -/
theorem initialize_error_order_witness :
    Rbspy.initializeImpl
        ⟨State.Ready, ⟨none, 100, false, none, false⟩, none, none, none, []⟩
      = (⟨State.Ready, ⟨none, 100, false, none, false⟩, none, none, none, []⟩,
          Except.error msgAlreadyInitialized)
    ∧ (Rbspy.initializeImpl
        ⟨State.Ready, ⟨none, 100, false, none, false⟩, none, none, none, []⟩).1.sampler
      = none :=
  ⟨initialize_error_order.1 _ (by decide),
    by
      have h := initialize_error_order.2.2
        ⟨State.Ready, ⟨none, 100, false, none, false⟩, none, none, none, []⟩
        (by rw [initialize_error_order.1 _ (by decide)]; exact fun hc => by cases hc)
      simpa using h⟩

/-- Claim C6 (amended): every lifecycle or configuration error
(AlreadyInitialized, MissingTarget, NotReady, NotRunning) is returned before
any mutation, so the backend is unchanged by the failing call; a `start`
whose sampler rejects the start leaves the state field at Ready, so `start`
can be retried — but the trace and error receivers are replaced with fresh
channels before the sampler is consulted, so the backend is not otherwise
unchanged. -/
theorem lifecycle_errors_preserve_backend :
    (∀ b : Rbspy, b.state ≠ State.Uninitialized → (Rbspy.initializeImpl b).1 = b)
    ∧ (∀ b : Rbspy, b.config.pid = none → (Rbspy.initializeImpl b).1 = b)
    ∧ (∀ (b : Rbspy) (r : Except String Unit), b.state ≠ State.Ready →
        (Rbspy.start r b).1 = b)
    ∧ (∀ b : Rbspy, b.state ≠ State.Running → (Rbspy.stop b).1 = b)
    ∧ (∀ b : Rbspy, b.state ≠ State.Running → (Rbspy.report b).1 = b)
    ∧ (∀ (b : Rbspy) (e : String), b.state = State.Ready →
        b.sampler.isSome = true →
        (Rbspy.start (Except.error e) b).2.1
            = Except.error ("Rbspy: Sampler Error: " ++ e)
        ∧ (Rbspy.start (Except.error e) b).1.state = State.Ready
        ∧ (Rbspy.start (Except.error e) b).1 =
            { b with stack_receiver := some ⟨b.config.sample_rate * 10 * 100, []⟩,
                     error_receiver := some [] }) := by
  refine ⟨?_, ?_, ?_, ?_, ?_, ?_⟩
  · intro b hs
    simp [Rbspy.initializeImpl, hs]
  · intro b hp
    by_cases hs : b.state = State.Uninitialized
    · simp [Rbspy.initializeImpl, hs, hp]
    · simp [Rbspy.initializeImpl, hs]
  · intro b r hs
    simp [Rbspy.start, hs]
  · intro b hs
    simp [Rbspy.stop, hs]
  · intro b hs
    simp [Rbspy.report, hs]
  · intro b e hs hsam
    obtain ⟨s, hsam2⟩ := Option.isSome_iff_exists.mp hsam
    refine ⟨?_, ?_, ?_⟩ <;> simp [Rbspy.start, hs, hsam2]

/-- Witness for `lifecycle_errors_preserve_backend`: a NotReady-refused
`start` leaves an uninitialized backend untouched; a sampler-refused `start`
reports the sampler cause and stays at Ready. -/
theorem lifecycle_errors_preserve_backend_witness :
    (Rbspy.start (Except.ok ()) (Rbspy.new RbspyConfig.default)).1
        = Rbspy.new RbspyConfig.default
    ∧ (Rbspy.start (Except.error "boom")
        ⟨State.Ready, ⟨some 1, 100, false, none, false⟩,
          some ⟨1, 100, false, none, false⟩, some ⟨5, []⟩, some [], []⟩).2.1
        = Except.error "Rbspy: Sampler Error: boom"
    ∧ (Rbspy.start (Except.error "boom")
        ⟨State.Ready, ⟨some 1, 100, false, none, false⟩,
          some ⟨1, 100, false, none, false⟩, some ⟨5, []⟩, some [], []⟩).1.state
        = State.Ready :=
  ⟨lifecycle_errors_preserve_backend.2.2.1 _ _ (by decide),
    (lifecycle_errors_preserve_backend.2.2.2.2.2
      ⟨State.Ready, ⟨some 1, 100, false, none, false⟩,
        some ⟨1, 100, false, none, false⟩, some ⟨5, []⟩, some [], []⟩
      "boom" rfl rfl).1,
    (lifecycle_errors_preserve_backend.2.2.2.2.2
      ⟨State.Ready, ⟨some 1, 100, false, none, false⟩,
        some ⟨1, 100, false, none, false⟩, some ⟨5, []⟩, some [], []⟩
      "boom" rfl rfl).2.1⟩

/-- Counterexample for claim C6 as stated ("... and otherwise unchanged"):
a `start` whose sampler rejects the start has already overwritten the trace
and error receivers, so the resulting backend differs from the original even
though its state field is still Ready. -/
theorem start_failure_mutates_cex :
    (Rbspy.start (Except.error "boom")
        ⟨State.Ready, ⟨some 1, 100, false, none, false⟩,
          some ⟨1, 100, false, none, false⟩, some ⟨5, []⟩, some [], []⟩).2.1
        = Except.error "Rbspy: Sampler Error: boom"
    ∧ (Rbspy.start (Except.error "boom")
        ⟨State.Ready, ⟨some 1, 100, false, none, false⟩,
          some ⟨1, 100, false, none, false⟩, some ⟨5, []⟩, some [], []⟩).1.state
        = State.Ready
    ∧ (Rbspy.start (Except.error "boom")
        ⟨State.Ready, ⟨some 1, 100, false, none, false⟩,
          some ⟨1, 100, false, none, false⟩, some ⟨5, []⟩, some [], []⟩).1
        ≠ ⟨State.Ready, ⟨some 1, 100, false, none, false⟩,
            some ⟨1, 100, false, none, false⟩, some ⟨5, []⟩, some [], []⟩ :=
  ⟨rfl, rfl, by decide⟩

/-- Claim C8: a successful `start` from the Ready state creates a bounded
trace channel whose capacity is exactly `sample_rate * 10 * 100`, creates an
unbounded error channel, hands the producer ends of both to the sampler's
start call, and transitions the state to Running. -/
theorem start_channel_contract :
    ∀ (b : Rbspy) (r : Except String Unit),
      (Rbspy.start r b).2.1 = Except.ok () →
      Rbspy.start r b =
        ({ b with state := State.Running,
                  stack_receiver := some ⟨b.config.sample_rate * 10 * 100, []⟩,
                  error_receiver := some [] },
          Except.ok (),
          [Effect.samplerStart (ChannelCap.bounded (b.config.sample_rate * 10 * 100))
            ChannelCap.unbounded]) := by
  intro b r h
  by_cases hs : b.state = State.Ready
  · cases hsam : b.sampler with
    | none => simp [Rbspy.start, hs, hsam] at h
    | some s =>
      cases r with
      | ok u => simp [Rbspy.start, hs, hsam]
      | error e => simp [Rbspy.start, hs, hsam] at h
  · exfalso
    simp [Rbspy.start, hs] at h

/-- Witness for `start_channel_contract`: at sample rate 50 the bounded
trace channel has capacity 50000 and the backend transitions to Running. -/
theorem start_channel_contract_witness :
    (Rbspy.start (Except.ok ())
        ⟨State.Ready, ⟨some 1, 50, false, none, false⟩,
          some ⟨1, 50, false, none, false⟩, none, none, []⟩).2.1 = Except.ok ()
    ∧ Rbspy.start (Except.ok ())
        ⟨State.Ready, ⟨some 1, 50, false, none, false⟩,
          some ⟨1, 50, false, none, false⟩, none, none, []⟩
      = (⟨State.Running, ⟨some 1, 50, false, none, false⟩,
            some ⟨1, 50, false, none, false⟩, some ⟨50000, []⟩, some [], []⟩,
          Except.ok (),
          [Effect.samplerStart (ChannelCap.bounded 50000) ChannelCap.unbounded]) :=
  ⟨rfl, start_channel_contract _ _ rfl⟩
